import Mathlib

set_option maxHeartbeats 1000000
set_option maxRecDepth 100000

namespace VarnishExporter

/-- Minimal JSON value model covering what main.go reads through fastjson:
strings, integers, arrays and objects (field lists kept in document order,
exactly as fastjson's `Object.Visit` iterates key/value pairs in parse
order), plus null and booleans. -/
inductive Json where
  | null
  | bool (b : Bool)
  | str (s : String)
  | int (n : Int)
  | arr (elems : List Json)
  | obj (fields : List (String × Json))

/-- The `Metric` struct of main.go (lines 17-22). The Go label map is
modelled as an association list in insertion order; every label map the
program ever builds has at most one entry (`newLabel` / `emptyLabel`), so
the unordered Go map is represented faithfully. `value` is the borrowed
originating JSON node. -/
structure Metric where
  category : String
  name : String
  labels : List (String × String)
  value : Json

/-- The `newMetric` constructor of main.go (lines 24-31). -/
def newMetric (cate nm : String) (labels : List (String × String)) (value : Json) : Metric :=
  ⟨cate, nm, labels, value⟩

/-- The `newLabel` constructor of main.go (lines 33-37): a one-entry map. -/
def newLabel (nm value : String) : List (String × String) :=
  [(nm, value)]

/-- The `emptyLabel` constructor of main.go (lines 39-41). -/
def emptyLabel : List (String × String) := []

/-- First-match field lookup, as fastjson's `Object.Get` scans the key/value
pairs in order. -/
def lookupField : List (String × Json) → String → Option Json
  | [], _ => none
  | (k, v) :: tl, key => if k = key then some v else lookupField tl key

/-- fastjson `Value.GetStringBytes(key)` followed by Go `string(...)`:
yields the string content of the field, and the empty string (Go
`string(nil)`) when the node is not an object, the field is missing, or the
field is not a string. -/
def getString (v : Json) (key : String) : String :=
  match v with
  | .obj fields =>
    match lookupField fields key with
    | some (.str s) => s
    | _ => ""
  | _ => ""

/-- Smallest value of Go's 64-bit `int`. -/
def int64Min : Int := -9223372036854775808

/-- Largest value of Go's 64-bit `int`. -/
def int64Max : Int := 9223372036854775807

/-- fastjson `Value.GetInt(key)`: the integer content of the field when it
is an integer representable in Go's `int`, and `0` in every failure case
(node not an object, field missing, field not an integer, out of range). -/
def getInt (v : Json) (key : String) : Int :=
  match v with
  | .obj fields =>
    match lookupField fields key with
    | some (.int n) => if n < int64Min ∨ int64Max < n then 0 else n
    | _ => 0
  | _ => 0

/-- Character-level worker for `splitDot`. -/
def splitChars : List Char → List Char → List String
  | [], cur => [String.mk cur.reverse]
  | c :: tl, cur =>
    if c = '.' then String.mk cur.reverse :: splitChars tl []
    else splitChars tl (c :: cur)

/-- Go `strings.Split(key, ".")` as used in main.go line 72, implemented
directly on the character list so that it reduces inside the kernel. It
always returns a non-empty list of the (possibly empty) segments between
dots. -/
def splitDot (key : String) : List String :=
  splitChars key.data []

/-- Go `strings.ToLower` (main.go line 94) restricted to ASCII; the SMA
storage identifiers it is applied to are plain ASCII identifiers. -/
def lowerStr (s : String) : String :=
  String.mk (s.data.map Char.toLower)

/-- `formatLabel` of main.go (lines 43-62): iterate the label entries,
writing an opening brace before the first entry and a comma before each
following one, then each entry as name, equals sign, quoted value; a
closing brace is appended exactly when anything was written. -/
def formatLabel (labels : List (String × String)) : String :=
  let w := labels.foldl
    (fun w p =>
      (if w = "" then "\x7b" else w ++ ",") ++ p.1 ++ "=\"" ++ p.2 ++ "\"")
    ""
  if w = "" then w else w ++ "\x7d"

/-- The fully qualified metric name `varnish_<category>_<name>` built by
`fmt.Sprintf` at main.go line 128. -/
def metricFullName (m : Metric) : String :=
  "varnish_" ++ m.category ++ "_" ++ m.name

/-- The HELP comment written at main.go line 130. -/
def helpLine (m : Metric) : String :=
  "# HELP " ++ metricFullName m ++ " " ++ getString m.value "description" ++ "\n"

/-- The TYPE comment written at main.go line 131: the type is `gauge`
exactly when the node's `flag` field is the string `g`, `counter`
otherwise (main.go lines 123-126). -/
def typeLine (m : Metric) : String :=
  "# TYPE " ++ metricFullName m ++ " " ++
    (if getString m.value "flag" = "g" then "gauge" else "counter") ++ "\n"

/-- The sample line written at main.go line 132. -/
def sampleLine (m : Metric) : String :=
  metricFullName m ++ formatLabel m.labels ++ " " ++ toString (getInt m.value "value") ++ "\n"

/-- The three buffer writes of main.go lines 130-132 for one metric. -/
def renderMetric (m : Metric) : String :=
  helpLine m ++ typeLine m ++ sampleLine m

/-- The rendering loop of main.go lines 118-133, concatenating in metric
order. -/
def renderAll : List Metric → String
  | [] => ""
  | m :: tl => renderMetric m ++ renderAll tl

/-- The fixed trailing `varnish_active_vcl` block written unconditionally
at main.go lines 135-137. -/
def activeVclBlock (activeVCL : String) : String :=
  "# HELP varnish_active_vcl vcl version\n" ++
  "# TYPE varnish_active_vcl gauge\n" ++
  ("varnish_active_vcl\x7bversion=\"" ++ activeVCL ++ "\"\x7d 1\n")

/-- One execution of the `value.Visit` closure of main.go lines 67-114 on a
single key/value pair. The state is the pair of the mutable `activeVCL`
variable (captured from the enclosing `genMetrics`) and the metric slice.
The Go code splits the key and indexes the segment slice: `splits[0]` is
`p0` and `splits[1]` is `p1` below (both exist once the `len(splits) < 2`
guard has passed, which is the outer match), while the unguarded accesses
`splits[2]` and `splits[3]` are the head and second element of `rest` and
panic (modelled as `none`) when `rest` is too short. -/
def visitKey (acc : String × List Metric) (key : String) (val : Json) :
    Option (String × List Metric) :=
  if key = "version" then some (acc.1, acc.2)
  else
    match splitDot key with
    | p0 :: p1 :: rest =>
      if p0 = "VBE" then
        let active2 := if acc.1 = "" then p1 else acc.1
        if p1 ≠ active2 then some (active2, acc.2)
        else
          match rest with
          | backend :: nm :: _ =>
            some (active2, acc.2 ++ [newMetric "backend" nm (newLabel "name" backend) val])
          | _ => none
      else if p0 = "MEMPOOL" then
        match rest with
        | nm :: _ => some (acc.1, acc.2 ++ [newMetric "mempool" nm (newLabel "name" p1) val])
        | [] => none
      else if p0 = "SMA" then
        match rest with
        | nm :: _ => some (acc.1, acc.2 ++ [newMetric "sma" nm (newLabel "type" (lowerStr p1)) val])
        | [] => none
      else if p0 = "LCK" then
        match rest with
        | nm :: _ => some (acc.1, acc.2 ++ [newMetric "lock" nm (newLabel "target" p1) val])
        | [] => none
      else if p0 = "SMF" then
        match rest with
        | nm :: _ => some (acc.1, acc.2 ++ [newMetric "smf" nm (newLabel "type" p1) val])
        | [] => none
      else if p0 = "MAIN" then
        some (acc.1, acc.2 ++ [newMetric "main" p1 emptyLabel val])
      else if p0 = "MGT" then
        some (acc.1, acc.2 ++ [newMetric "mgt" p1 emptyLabel val])
      else
        some (acc.1, acc.2)
    | _ => some (acc.1, acc.2)

/-- The full `value.Visit` iteration of main.go lines 67-114 over the
counter object's key/value pairs in document order. -/
def visitAll : List (String × Json) → String × List Metric → Option (String × List Metric)
  | [], acc => some acc
  | (key, val) :: rest, acc =>
    match visitKey acc key val with
    | none => none
    | some acc2 => visitAll rest acc2

/-- `genMetrics` of main.go (lines 64-140): classify every key, then render
all retained metrics followed by the `varnish_active_vcl` block for the
final value of the `activeVCL` variable. A Go panic during the visit is
modelled as `none`. -/
def genMetrics (counters : List (String × Json)) (activeVCL : String) : Option String :=
  match visitAll counters (activeVCL, []) with
  | none => none
  | some st => some (renderAll st.2 ++ activeVclBlock st.1)

/-- A key that enters the VBE branch of main.go line 77: first dot segment
`VBE` and at least two segments (so that the `len(splits) < 2` guard at
line 73 does not discard it). -/
def isVBEKey (k : String) : Prop :=
  (splitDot k).getD 0 "" = "VBE" ∧ 2 ≤ (splitDot k).length

instance (k : String) : Decidable (isVBEKey k) := by
  unfold isVBEKey; infer_instance

/-- Shape of every label map the classification code attaches to a metric:
one `name` label for backend and mempool metrics, one `type` label for sma
and smf metrics, one `target` label for lock metrics and no label for main
and mgt metrics. -/
def metricShape (m : Metric) : Prop :=
  ((m.category = "backend" ∨ m.category = "mempool") ∧ ∃ b, m.labels = [("name", b)]) ∨
  ((m.category = "sma" ∨ m.category = "smf") ∧ ∃ b, m.labels = [("type", b)]) ∨
  (m.category = "lock" ∧ ∃ b, m.labels = [("target", b)]) ∨
  ((m.category = "main" ∨ m.category = "mgt") ∧ m.labels = [])

/-- Boolean string-suffix test used to state facts about the tail of the
generated exposition text. -/
def strSuffix (s t : String) : Bool :=
  s.data.isSuffixOf t.data

/-- Number of positions of the first list at which the second list occurs
as a contiguous sublist. -/
def subCount : List Char → List Char → Nat
  | [], _ => 0
  | c :: tl, pat => (if pat.isPrefixOf (c :: tl) then 1 else 0) + subCount tl pat

/-- The error cases of `parseVCLList` named as in the specification:
`malformedInput` covers a fastjson parse failure and a `val.Array()` type
failure, `noActiveRevision` is the `errors.New` at main.go line 245. -/
inductive VclError where
  | malformedInput
  | noActiveRevision

/-- The scan loop of main.go lines 238-244 over `arr[3:]`: return the
`name` field of the first entry whose `status` field is `active`. -/
def findActiveVcl : List Json → Option String
  | [] => none
  | v :: tl =>
    if getString v "status" = "active" then some (getString v "name")
    else findActiveVcl tl

/-- Outcome of `fastjson.Parse` on the raw `vcl.list -j` text: either the
text is not valid JSON, or it decodes to a value. -/
inductive ParseOutcome where
  | invalid
  | value (v : Json)

/-- `parseVCLList` of main.go (lines 227-246), as a function of the parse
outcome of its input text. The Go slice expression `arr[3:]` panics when
the array is shorter than 3 entries; the panic is modelled as `none`. -/
def parseVCLList : ParseOutcome → Option (Except VclError String)
  | .invalid => some (.error .malformedInput)
  | .value v =>
    match v with
    | .arr a =>
      if a.length < 3 then none
      else
        some (match findActiveVcl (a.drop 3) with
          | some nm => .ok nm
          | none => .error .noActiveRevision)
    | _ => some (.error .malformedInput)

/-- A key whose dot split has at least two segments cannot be the literal
`version`, whose split is the one-element list. -/
theorem ne_version_of_split (key p0 p1 : String) (l : List String)
    (hs : splitDot key = p0 :: p1 :: l) : key ≠ "version" := by
  intro hk
  subst hk
  have h : splitDot "version" = ["version"] := rfl
  rw [h] at hs
  injection hs with h1 h2
  injection h2

/-- The reserved key `version` is skipped without touching the state. -/
theorem visitKey_version (acc : String × List Metric) (val : Json) :
    visitKey acc "version" val = some (acc.1, acc.2) := by
  simp [visitKey]

/-- A key with fewer than two dot segments is discarded without touching
the state. -/
theorem visitKey_short (acc : String × List Metric) (key : String) (val : Json)
    (h : (splitDot key).length < 2) : visitKey acc key val = some (acc.1, acc.2) := by
  by_cases hk : key = "version"
  · simp [visitKey, hk]
  · rcases hsp : splitDot key with _ | ⟨p0, _ | ⟨p1, rest⟩⟩
    · simp [visitKey, hk, hsp]
    · simp [visitKey, hk, hsp]
    · rw [hsp] at h
      simp only [List.length_cons] at h
      omega

/-- A key whose first segment is outside the recognized vocabulary is only
logged and produces nothing. -/
theorem visitKey_unknown (acc : String × List Metric) (key : String) (val : Json)
    (p0 p1 : String) (rest : List String)
    (hs : splitDot key = p0 :: p1 :: rest)
    (h : p0 ∉ (["VBE", "MEMPOOL", "SMA", "LCK", "SMF", "MAIN", "MGT"] : List String)) :
    visitKey acc key val = some (acc.1, acc.2) := by
  have hk := ne_version_of_split key p0 p1 rest hs
  simp only [List.mem_cons, List.not_mem_nil, or_false, not_or] at h
  obtain ⟨h1, h2, h3, h4, h5, h6, h7⟩ := h
  simp [visitKey, hk, hs, h1, h2, h3, h4, h5, h6, h7]

/-- The MEMPOOL branch of main.go lines 89-92. -/
theorem visitKey_mempool (acc : String × List Metric) (key : String) (val : Json)
    (p1 nm : String) (rest : List String)
    (hs : splitDot key = "MEMPOOL" :: p1 :: nm :: rest) :
    visitKey acc key val =
      some (acc.1, acc.2 ++ [newMetric "mempool" nm (newLabel "name" p1) val]) := by
  have hk := ne_version_of_split key _ _ _ hs
  simp [visitKey, hk, hs]

/-- The SMA branch of main.go lines 93-96. -/
theorem visitKey_sma (acc : String × List Metric) (key : String) (val : Json)
    (p1 nm : String) (rest : List String)
    (hs : splitDot key = "SMA" :: p1 :: nm :: rest) :
    visitKey acc key val =
      some (acc.1, acc.2 ++ [newMetric "sma" nm (newLabel "type" (lowerStr p1)) val]) := by
  have hk := ne_version_of_split key _ _ _ hs
  simp [visitKey, hk, hs]

/-- The LCK branch of main.go lines 97-100. -/
theorem visitKey_lck (acc : String × List Metric) (key : String) (val : Json)
    (p1 nm : String) (rest : List String)
    (hs : splitDot key = "LCK" :: p1 :: nm :: rest) :
    visitKey acc key val =
      some (acc.1, acc.2 ++ [newMetric "lock" nm (newLabel "target" p1) val]) := by
  have hk := ne_version_of_split key _ _ _ hs
  simp [visitKey, hk, hs]

/-- The SMF branch of main.go lines 101-104. -/
theorem visitKey_smf (acc : String × List Metric) (key : String) (val : Json)
    (p1 nm : String) (rest : List String)
    (hs : splitDot key = "SMF" :: p1 :: nm :: rest) :
    visitKey acc key val =
      some (acc.1, acc.2 ++ [newMetric "smf" nm (newLabel "type" p1) val]) := by
  have hk := ne_version_of_split key _ _ _ hs
  simp [visitKey, hk, hs]

/-- The MAIN branch of main.go lines 105-107. -/
theorem visitKey_main (acc : String × List Metric) (key : String) (val : Json)
    (p1 : String) (rest : List String)
    (hs : splitDot key = "MAIN" :: p1 :: rest) :
    visitKey acc key val =
      some (acc.1, acc.2 ++ [newMetric "main" p1 emptyLabel val]) := by
  have hk := ne_version_of_split key _ _ _ hs
  simp [visitKey, hk, hs]

/-- The MGT branch of main.go lines 108-110. -/
theorem visitKey_mgt (acc : String × List Metric) (key : String) (val : Json)
    (p1 : String) (rest : List String)
    (hs : splitDot key = "MGT" :: p1 :: rest) :
    visitKey acc key val =
      some (acc.1, acc.2 ++ [newMetric "mgt" p1 emptyLabel val]) := by
  have hk := ne_version_of_split key _ _ _ hs
  simp [visitKey, hk, hs]

/-- The VBE branch when the key has all four segments and the revision is
either adopted (empty active revision) or matches the active revision. -/
theorem visitKey_vbe_produce (vcl : String) (ms : List Metric) (key : String) (val : Json)
    (p1 backend nm : String) (rest : List String)
    (hs : splitDot key = "VBE" :: p1 :: backend :: nm :: rest)
    (h : vcl = "" ∨ vcl = p1) :
    visitKey (vcl, ms) key val =
      some ((if vcl = "" then p1 else vcl),
        ms ++ [newMetric "backend" nm (newLabel "name" backend) val]) := by
  have hk := ne_version_of_split key _ _ _ hs
  by_cases hv : vcl = ""
  · subst hv
    simp [visitKey, hk, hs]
  · have hvp : vcl = p1 := h.resolve_left hv
    subst hvp
    simp [visitKey, hk, hs, hv]

/-- The VBE branch drops the key (without indexing past the revision
segment) when a nonempty active revision differs from the key's revision. -/
theorem visitKey_vbe_drop (vcl : String) (ms : List Metric) (key : String) (val : Json)
    (p1 : String) (rest : List String)
    (hs : splitDot key = "VBE" :: p1 :: rest) (hv : vcl ≠ "") (hp : p1 ≠ vcl) :
    visitKey (vcl, ms) key val = some (vcl, ms) := by
  have hk := ne_version_of_split key _ _ _ hs
  simp [visitKey, hk, hs, hv, hp]

/-- Master inversion for one visit step: when it does not panic, the active
revision is preserved except for VBE adoption from the empty revision, and
the metric list either is unchanged or grows by one well-shaped metric. -/
theorem visitKey_cases (acc : String × List Metric) (key : String) (val : Json)
    (acc2 : String × List Metric) (hv : visitKey acc key val = some acc2) :
    (acc2.1 = acc.1 ∨ (acc.1 = "" ∧ isVBEKey key)) ∧
    (acc2.2 = acc.2 ∨ ∃ m, acc2.2 = acc.2 ++ [m] ∧ metricShape m) := by
  by_cases hk : key = "version"
  · simp [visitKey, hk] at hv
    rw [← hv]
    exact ⟨Or.inl rfl, Or.inl rfl⟩
  · rcases hsp : splitDot key with _ | ⟨p0, _ | ⟨p1, rest⟩⟩
    · simp [visitKey, hk, hsp] at hv
      rw [← hv]
      exact ⟨Or.inl rfl, Or.inl rfl⟩
    · simp [visitKey, hk, hsp] at hv
      rw [← hv]
      exact ⟨Or.inl rfl, Or.inl rfl⟩
    · have hvbe : p0 = "VBE" → isVBEKey key := by
        intro h0
        refine ⟨?_, ?_⟩
        · rw [hsp, h0]
          rfl
        · rw [hsp]
          simp only [List.length_cons]
          omega
      by_cases h0 : p0 = "VBE"
      · subst h0
        by_cases hva : acc.1 = ""
        · rcases rest with _ | ⟨b, _ | ⟨n, r⟩⟩
          · simp [visitKey, hk, hsp, hva] at hv
          · simp [visitKey, hk, hsp, hva] at hv
          · simp [visitKey, hk, hsp, hva] at hv
            rw [← hv]
            exact ⟨Or.inr ⟨hva, hvbe rfl⟩,
              Or.inr ⟨_, rfl, Or.inl ⟨Or.inl rfl, b, rfl⟩⟩⟩
        · by_cases hp1 : p1 = acc.1
          · rcases rest with _ | ⟨b, _ | ⟨n, r⟩⟩
            · simp [visitKey, hk, hsp, hva, hp1] at hv
            · simp [visitKey, hk, hsp, hva, hp1] at hv
            · simp [visitKey, hk, hsp, hva, hp1] at hv
              rw [← hv]
              exact ⟨Or.inl rfl, Or.inr ⟨_, rfl, Or.inl ⟨Or.inl rfl, b, rfl⟩⟩⟩
          · simp [visitKey, hk, hsp, hva, hp1] at hv
            rw [← hv]
            exact ⟨Or.inl rfl, Or.inl rfl⟩
      · by_cases h1 : p0 = "MEMPOOL"
        · subst h1
          rcases rest with _ | ⟨n, r⟩
          · simp [visitKey, hk, hsp] at hv
          · simp [visitKey, hk, hsp] at hv
            rw [← hv]
            exact ⟨Or.inl rfl, Or.inr ⟨_, rfl, Or.inl ⟨Or.inr rfl, p1, rfl⟩⟩⟩
        · by_cases h2 : p0 = "SMA"
          · subst h2
            rcases rest with _ | ⟨n, r⟩
            · simp [visitKey, hk, hsp] at hv
            · simp [visitKey, hk, hsp] at hv
              rw [← hv]
              exact ⟨Or.inl rfl, Or.inr ⟨_, rfl, Or.inr (Or.inl ⟨Or.inl rfl, lowerStr p1, rfl⟩)⟩⟩
          · by_cases h3 : p0 = "LCK"
            · subst h3
              rcases rest with _ | ⟨n, r⟩
              · simp [visitKey, hk, hsp] at hv
              · simp [visitKey, hk, hsp] at hv
                rw [← hv]
                exact ⟨Or.inl rfl, Or.inr ⟨_, rfl, Or.inr (Or.inr (Or.inl ⟨rfl, p1, rfl⟩))⟩⟩
            · by_cases h4 : p0 = "SMF"
              · subst h4
                rcases rest with _ | ⟨n, r⟩
                · simp [visitKey, hk, hsp] at hv
                · simp [visitKey, hk, hsp] at hv
                  rw [← hv]
                  exact ⟨Or.inl rfl, Or.inr ⟨_, rfl, Or.inr (Or.inl ⟨Or.inr rfl, p1, rfl⟩)⟩⟩
              · by_cases h5 : p0 = "MAIN"
                · subst h5
                  simp [visitKey, hk, hsp] at hv
                  rw [← hv]
                  exact ⟨Or.inl rfl, Or.inr ⟨_, rfl, Or.inr (Or.inr (Or.inr ⟨Or.inl rfl, rfl⟩))⟩⟩
                · by_cases h6 : p0 = "MGT"
                  · subst h6
                    simp [visitKey, hk, hsp] at hv
                    rw [← hv]
                    exact ⟨Or.inl rfl, Or.inr ⟨_, rfl, Or.inr (Or.inr (Or.inr ⟨Or.inr rfl, rfl⟩))⟩⟩
                  · simp [visitKey, hk, hsp, h0, h1, h2, h3, h4, h5, h6] at hv
                    rw [← hv]
                    exact ⟨Or.inl rfl, Or.inl rfl⟩

/-- The active revision is preserved by one visit step when it is nonempty
or the key is not a VBE key. -/
theorem visitKey_fst (acc : String × List Metric) (key : String) (val : Json)
    (acc2 : String × List Metric) (h : acc.1 ≠ "" ∨ ¬ isVBEKey key)
    (hv : visitKey acc key val = some acc2) : acc2.1 = acc.1 := by
  rcases (visitKey_cases acc key val acc2 hv).1 with h1 | ⟨h2, h3⟩
  · exact h1
  · rcases h with h | h
    · exact absurd h2 h
    · exact absurd h3 h

/-- The visit loop splits over list concatenation. -/
theorem visitAll_append (xs ys : List (String × Json)) (acc : String × List Metric) :
    visitAll (xs ++ ys) acc =
      match visitAll xs acc with
      | none => none
      | some a => visitAll ys a := by
  induction xs generalizing acc with
  | nil => simp [visitAll]
  | cons hd tl ih =>
    obtain ⟨k, v⟩ := hd
    simp only [List.cons_append, visitAll]
    cases visitKey acc k v with
    | none => rfl
    | some a2 => exact ih a2

/-- A nonempty active revision survives the whole visit loop. -/
theorem visitAll_fst_stable : ∀ (cs : List (String × Json)) (acc st : String × List Metric),
    acc.1 ≠ "" → visitAll cs acc = some st → st.1 = acc.1 := by
  intro cs
  induction cs with
  | nil =>
    intro acc st h hv
    simp [visitAll] at hv
    rw [← hv]
  | cons hd tl ih =>
    intro acc st h hv
    obtain ⟨k, v⟩ := hd
    simp only [visitAll] at hv
    cases hvk : visitKey acc k v with
    | none =>
      rw [hvk] at hv
      simp at hv
    | some a2 =>
      rw [hvk] at hv
      have hv2 : visitAll tl a2 = some st := hv
      have hf := visitKey_fst acc k v a2 (Or.inl h) hvk
      have h3 := ih a2 st (by rw [hf]; exact h) hv2
      rw [h3, hf]

/-- The active revision is unchanged by the visit loop when no key is a VBE
key. -/
theorem visitAll_fst_not_vbe : ∀ (cs : List (String × Json)) (acc st : String × List Metric),
    (∀ p ∈ cs, ¬ isVBEKey p.1) → visitAll cs acc = some st → st.1 = acc.1 := by
  intro cs
  induction cs with
  | nil =>
    intro acc st _ hv
    simp [visitAll] at hv
    rw [← hv]
  | cons hd tl ih =>
    intro acc st h hv
    obtain ⟨k, v⟩ := hd
    simp only [visitAll] at hv
    cases hvk : visitKey acc k v with
    | none =>
      rw [hvk] at hv
      simp at hv
    | some a2 =>
      rw [hvk] at hv
      have hv2 : visitAll tl a2 = some st := hv
      have hf := visitKey_fst acc k v a2 (Or.inr (h (k, v) (by simp))) hvk
      have h3 := ih a2 st (fun p hp => h p (by simp [hp])) hv2
      rw [h3, hf]

/-- Every metric present after the visit loop was present before or has
the label shape produced by the classification code. -/
theorem visitAll_shape : ∀ (cs : List (String × Json)) (acc st : String × List Metric),
    visitAll cs acc = some st → ∀ m ∈ st.2, m ∈ acc.2 ∨ metricShape m := by
  intro cs
  induction cs with
  | nil =>
    intro acc st hv m hm
    simp [visitAll] at hv
    rw [← hv] at hm
    exact Or.inl hm
  | cons hd tl ih =>
    intro acc st hv m hm
    obtain ⟨k, v⟩ := hd
    simp only [visitAll] at hv
    cases hvk : visitKey acc k v with
    | none =>
      rw [hvk] at hv
      simp at hv
    | some a2 =>
      rw [hvk] at hv
      have hv2 : visitAll tl a2 = some st := hv
      rcases ih a2 st hv2 m hm with hmem | hsh
      · rcases (visitKey_cases acc k v a2 hvk).2 with h2 | ⟨m0, h2, hsh0⟩
        · rw [h2] at hmem
          exact Or.inl hmem
        · rw [h2] at hmem
          rcases List.mem_append.mp hmem with h3 | h3
          · exact Or.inl h3
          · have h4 := List.mem_singleton.mp h3
            rw [h4]
            exact Or.inr hsh0
      · exact Or.inr hsh

/-- Inversion for a successful render: the output is the rendered metric
list followed by the trailing block for the final active revision. -/
theorem genMetrics_some : ∀ (cs : List (String × Json)) (vcl out : String),
    genMetrics cs vcl = some out →
    ∃ st, visitAll cs (vcl, []) = some st ∧
      out = renderAll st.2 ++ activeVclBlock st.1 := by
  intro cs vcl out h
  unfold genMetrics at h
  cases hv : visitAll cs (vcl, []) with
  | none =>
    rw [hv] at h
    simp at h
  | some st =>
    rw [hv] at h
    have h2 : some (renderAll st.2 ++ activeVclBlock st.1) = some out := h
    exact ⟨st, rfl, (Option.some_inj.mp h2).symm⟩

/-- Appending text on the left keeps the right part a suffix. -/
theorem strSuffix_append (b s : String) : strSuffix s (b ++ s) = true := by
  unfold strSuffix
  rw [String.data_append]
  simp [List.isSuffixOf_iff_suffix]

/-- C8: on the counters object with reserved key `version` and the single
counter `MAIN.uptime` carrying description `d`, flag `c` and value `42`,
`genMetrics` with empty active revision returns exactly the three
`varnish_main_uptime` lines followed by the `varnish_active_vcl` block
whose `version` label value is the empty string. -/
theorem genMetrics_end_to_end_main_uptime :
    genMetrics
      [("version", Json.str "1"),
       ("MAIN.uptime", Json.obj
         [("description", Json.str "d"), ("flag", Json.str "c"), ("value", Json.int 42)])]
      "" =
    some ("# HELP varnish_main_uptime d\n# TYPE varnish_main_uptime counter\nvarnish_main_uptime 42\n"
      ++ activeVclBlock "") := by
  rfl

/-- C3: `genMetrics` is not total. On the counters object with the single
key `MEMPOOL.x` (two dot segments, recognized first segment) the Go code
indexes `splits[2]` out of range and panics (modelled as `none`), while a
`MAIN` node with missing `description`, `flag` and `value` fields is
rendered with the empty description, type `counter` and value `0` instead
of aborting. -/
theorem genMetrics_short_mempool_key_panics :
    genMetrics [("MEMPOOL.x", Json.obj [])] "" = none ∧
    genMetrics [("MAIN.x", Json.obj [])] "" =
      some ("# HELP varnish_main_x \n# TYPE varnish_main_x counter\nvarnish_main_x 0\n"
        ++ activeVclBlock "") := by
  exact ⟨rfl, rfl⟩

/-- C1 (amended): for every key other than `version`, the visit step
produces exactly one Metric with category, name and labels per the
classification table when the key has a recognized first segment and
enough segments for its class (four for VBE, three for MEMPOOL, SMA, LCK
and SMF, two for MAIN and MGT) and, for VBE, a revision id equal to the
active revision in force when the key is visited (adopting it when the
active revision is empty); keys with fewer than two segments, the
`version` key and keys with an unrecognized first segment produce zero
Metrics. -/
theorem visitKey_classification :
    (∀ (acc : String × List Metric) (val : Json),
      visitKey acc "version" val = some (acc.1, acc.2)) ∧
    (∀ (acc : String × List Metric) (key : String) (val : Json),
      (splitDot key).length < 2 → visitKey acc key val = some (acc.1, acc.2)) ∧
    (∀ (acc : String × List Metric) (key : String) (val : Json)
        (p0 p1 : String) (rest : List String),
      splitDot key = p0 :: p1 :: rest →
      p0 ∉ (["VBE", "MEMPOOL", "SMA", "LCK", "SMF", "MAIN", "MGT"] : List String) →
      visitKey acc key val = some (acc.1, acc.2)) ∧
    (∀ (acc : String × List Metric) (key : String) (val : Json)
        (p1 nm : String) (rest : List String),
      splitDot key = "MEMPOOL" :: p1 :: nm :: rest →
      visitKey acc key val =
        some (acc.1, acc.2 ++ [newMetric "mempool" nm (newLabel "name" p1) val])) ∧
    (∀ (acc : String × List Metric) (key : String) (val : Json)
        (p1 nm : String) (rest : List String),
      splitDot key = "SMA" :: p1 :: nm :: rest →
      visitKey acc key val =
        some (acc.1, acc.2 ++ [newMetric "sma" nm (newLabel "type" (lowerStr p1)) val])) ∧
    (∀ (acc : String × List Metric) (key : String) (val : Json)
        (p1 nm : String) (rest : List String),
      splitDot key = "LCK" :: p1 :: nm :: rest →
      visitKey acc key val =
        some (acc.1, acc.2 ++ [newMetric "lock" nm (newLabel "target" p1) val])) ∧
    (∀ (acc : String × List Metric) (key : String) (val : Json)
        (p1 nm : String) (rest : List String),
      splitDot key = "SMF" :: p1 :: nm :: rest →
      visitKey acc key val =
        some (acc.1, acc.2 ++ [newMetric "smf" nm (newLabel "type" p1) val])) ∧
    (∀ (acc : String × List Metric) (key : String) (val : Json)
        (p1 : String) (rest : List String),
      splitDot key = "MAIN" :: p1 :: rest →
      visitKey acc key val =
        some (acc.1, acc.2 ++ [newMetric "main" p1 emptyLabel val])) ∧
    (∀ (acc : String × List Metric) (key : String) (val : Json)
        (p1 : String) (rest : List String),
      splitDot key = "MGT" :: p1 :: rest →
      visitKey acc key val =
        some (acc.1, acc.2 ++ [newMetric "mgt" p1 emptyLabel val])) ∧
    (∀ (vcl : String) (ms : List Metric) (key : String) (val : Json)
        (p1 backend nm : String) (rest : List String),
      splitDot key = "VBE" :: p1 :: backend :: nm :: rest →
      vcl = "" ∨ vcl = p1 →
      visitKey (vcl, ms) key val =
        some ((if vcl = "" then p1 else vcl),
          ms ++ [newMetric "backend" nm (newLabel "name" backend) val])) := by
  refine ⟨visitKey_version, visitKey_short, ?_, ?_, ?_, ?_, ?_, ?_, ?_, ?_⟩
  · intro acc key val p0 p1 rest hs h
    exact visitKey_unknown acc key val p0 p1 rest hs h
  · intro acc key val p1 nm rest hs
    exact visitKey_mempool acc key val p1 nm rest hs
  · intro acc key val p1 nm rest hs
    exact visitKey_sma acc key val p1 nm rest hs
  · intro acc key val p1 nm rest hs
    exact visitKey_lck acc key val p1 nm rest hs
  · intro acc key val p1 nm rest hs
    exact visitKey_smf acc key val p1 nm rest hs
  · intro acc key val p1 rest hs
    exact visitKey_main acc key val p1 rest hs
  · intro acc key val p1 rest hs
    exact visitKey_mgt acc key val p1 rest hs
  · intro vcl ms key val p1 backend nm rest hs h
    exact visitKey_vbe_produce vcl ms key val p1 backend nm rest hs h

/-- C1 counterexample: the key `VBE.b.be2.conn` has four dot segments and
the recognized first segment `VBE`, yet with active revision `a` the
generator retains no Metric for it (the revision filter drops it): the
classification pass ends with an empty metric list and the output is just
the trailing block, refuting the unconditional one-Metric-per-recognized-key
claim. -/
theorem visitKey_classification_not_unconditional :
    visitAll [("VBE.b.be2.conn", Json.null)] ("a", []) = some ("a", []) ∧
    genMetrics [("VBE.b.be2.conn", Json.null)] "a" = some (activeVclBlock "a") :=
  ⟨rfl, rfl⟩

/-- Witness for the C1 theorem: the MEMPOOL row of the table applied to the
concrete key `MEMPOOL.p.n`. -/
theorem visitKey_classification_witness :
    visitKey ("", ([] : List Metric)) "MEMPOOL.p.n" Json.null =
      some ("", [newMetric "mempool" "n" (newLabel "name" "p") Json.null]) := by
  exact visitKey_classification.2.2.2.1 ("", []) "MEMPOOL.p.n" Json.null "p" "n" [] rfl

/-- C2 (amended): with an empty active revision, a VBE key with all four
segments adopts its revision id as the active revision and produces its
backend Metric; a VBE key whose revision id differs from a nonempty active
revision produces no Metric; a nonempty active revision is never changed
by a visit step, so an adopted nonempty revision persists for the rest of
the pass (a VBE key whose revision id is empty leaves the active revision
empty, so a later VBE key may adopt instead); in particular the keys
`VBE.a.be1.conn` then `VBE.b.be2.conn` with empty active revision yield
only the revision-`a` backend `be1` metric. -/
theorem vbe_revision_filtering :
    (∀ (ms : List Metric) (key : String) (val : Json)
        (p1 backend nm : String) (rest : List String),
      splitDot key = "VBE" :: p1 :: backend :: nm :: rest →
      visitKey ("", ms) key val =
        some (p1, ms ++ [newMetric "backend" nm (newLabel "name" backend) val])) ∧
    (∀ (vcl : String) (ms : List Metric) (key : String) (val : Json)
        (p1 : String) (rest : List String),
      vcl ≠ "" → splitDot key = "VBE" :: p1 :: rest → p1 ≠ vcl →
      visitKey (vcl, ms) key val = some (vcl, ms)) ∧
    (∀ (acc : String × List Metric) (key : String) (val : Json)
        (acc2 : String × List Metric),
      acc.1 ≠ "" → visitKey acc key val = some acc2 → acc2.1 = acc.1) ∧
    (∀ (cs : List (String × Json)) (acc st : String × List Metric),
      acc.1 ≠ "" → visitAll cs acc = some st → st.1 = acc.1) ∧
    genMetrics [("VBE.a.be1.conn", Json.null), ("VBE.b.be2.conn", Json.null)] "" =
      some ("# HELP varnish_backend_conn \n# TYPE varnish_backend_conn counter\nvarnish_backend_conn\x7bname=\"be1\"\x7d 0\n"
        ++ activeVclBlock "a") := by
  refine ⟨?_, ?_, ?_, visitAll_fst_stable, rfl⟩
  · intro ms key val p1 backend nm rest hs
    exact visitKey_vbe_produce "" ms key val p1 backend nm rest hs (Or.inl rfl)
  · intro vcl ms key val p1 rest hv hs hp
    exact visitKey_vbe_drop vcl ms key val p1 rest hs hv hp
  · intro acc key val acc2 h hv
    exact visitKey_fst acc key val acc2 (Or.inl h) hv

/-- C2 counterexample: the first VBE key `VBE..be1.conn` has the empty
revision id, so per the claim the adopted active revision is the empty
string and the second key `VBE.b.be2.conn` (revision `b`, different from
it) should produce no Metric; the code instead lets the second key adopt
`b` and keeps both backend metrics. -/
theorem vbe_empty_revision_adoption_leak :
    visitAll [("VBE..be1.conn", Json.null), ("VBE.b.be2.conn", Json.null)] ("", []) =
      some ("b", [newMetric "backend" "conn" (newLabel "name" "be1") Json.null,
                  newMetric "backend" "conn" (newLabel "name" "be2") Json.null]) :=
  rfl

/-- Witness for the C2 theorem: the drop part applied to the concrete key
`VBE.b.be2.conn` against the active revision `a`. -/
theorem vbe_revision_filtering_witness :
    visitKey ("a", ([] : List Metric)) "VBE.b.be2.conn" Json.null = some ("a", []) := by
  exact vbe_revision_filtering.2.1 "a" [] "VBE.b.be2.conn" Json.null "b" ["be2", "conn"]
    (by decide) rfl (by decide)

/-- C4 (amended): every successful render ends with the
`varnish_active_vcl` block, appended exactly once by the generator as the
suffix of the output, for every counters object and active revision; when
the counters contain no VBE key the block's version label is exactly the
active revision that was passed in. As raw text the block can occur
additional times earlier in the output because description text is
interpolated unescaped. -/
theorem active_vcl_block_suffix :
    ∀ (cs : List (String × Json)) (vcl out : String),
      genMetrics cs vcl = some out →
      ∃ v body, out = body ++ activeVclBlock v ∧
        ((∀ p ∈ cs, ¬ isVBEKey p.1) → v = vcl) := by
  intro cs vcl out h
  obtain ⟨st, hv, he⟩ := genMetrics_some cs vcl out h
  exact ⟨st.1, renderAll st.2, he,
    fun hno => visitAll_fst_not_vbe cs (vcl, []) st hno hv⟩

/-- C4 counterexample: a `MAIN.x` counter whose description embeds the
exact text of the `varnish_active_vcl` block for the empty revision makes
that block occur twice in the output text (once inside the rendered HELP
line, once as the real trailer), refuting the exactly-once containment
claim; the block is still the suffix. -/
theorem active_vcl_block_duplicated_by_description :
    genMetrics
      [("MAIN.x", Json.obj [("description", Json.str
        "z\n# HELP varnish_active_vcl vcl version\n# TYPE varnish_active_vcl gauge\nvarnish_active_vcl\x7bversion=\"\"\x7d 1")])]
      "" =
      some "# HELP varnish_main_x z\n# HELP varnish_active_vcl vcl version\n# TYPE varnish_active_vcl gauge\nvarnish_active_vcl\x7bversion=\"\"\x7d 1\n# TYPE varnish_main_x counter\nvarnish_main_x 0\n# HELP varnish_active_vcl vcl version\n# TYPE varnish_active_vcl gauge\nvarnish_active_vcl\x7bversion=\"\"\x7d 1\n" ∧
    strSuffix (activeVclBlock "")
      "# HELP varnish_main_x z\n# HELP varnish_active_vcl vcl version\n# TYPE varnish_active_vcl gauge\nvarnish_active_vcl\x7bversion=\"\"\x7d 1\n# TYPE varnish_main_x counter\nvarnish_main_x 0\n# HELP varnish_active_vcl vcl version\n# TYPE varnish_active_vcl gauge\nvarnish_active_vcl\x7bversion=\"\"\x7d 1\n" = true ∧
    subCount
      ("# HELP varnish_main_x z\n# HELP varnish_active_vcl vcl version\n# TYPE varnish_active_vcl gauge\nvarnish_active_vcl\x7bversion=\"\"\x7d 1\n# TYPE varnish_main_x counter\nvarnish_main_x 0\n# HELP varnish_active_vcl vcl version\n# TYPE varnish_active_vcl gauge\nvarnish_active_vcl\x7bversion=\"\"\x7d 1\n" : String).data
      (activeVclBlock "").data = 2 := by
  exact ⟨rfl, rfl, rfl⟩

/-- Witness for the C4 theorem at the empty counters object and active
revision `x`. -/
theorem active_vcl_block_suffix_witness :
    ∃ v body, activeVclBlock "x" = body ++ activeVclBlock v ∧
      ((∀ p ∈ ([] : List (String × Json)), ¬ isVBEKey p.1) → v = "x") := by
  exact active_vcl_block_suffix [] "x" (activeVclBlock "x") rfl

/-- C5: `parseVCLList` returns `boot` on the reference list whose entries
0-2 are non-record metadata and whose entry 3 is the active `boot` record;
undecodable input and a decodable non-array value fail with
`malformedInput`; a decodable array with at least three entries and no
active record fails with `noActiveRevision`; but a decodable array with
fewer than three entries (for example the empty array, which per the claim
should be a `noActiveRevision` failure) makes the Go code panic on the
slice expression `arr[3:]`, modelled as `none`. -/
theorem parseVCLList_behavior :
    parseVCLList (ParseOutcome.value (Json.arr
      [Json.str "meta", Json.int 5, Json.null,
       Json.obj [("status", Json.str "active"), ("name", Json.str "boot")]])) =
      some (Except.ok "boot") ∧
    parseVCLList ParseOutcome.invalid = some (Except.error VclError.malformedInput) ∧
    parseVCLList (ParseOutcome.value (Json.str "x")) =
      some (Except.error VclError.malformedInput) ∧
    parseVCLList (ParseOutcome.value (Json.arr
      [Json.null, Json.null, Json.null,
       Json.obj [("status", Json.str "cold"), ("name", Json.str "boot")]])) =
      some (Except.error VclError.noActiveRevision) ∧
    parseVCLList (ParseOutcome.value (Json.arr [])) = none := by
  exact ⟨rfl, rfl, rfl, rfl, rfl⟩

/-- Any rendered metric list decomposes around the TYPE line of each of
its members. -/
theorem renderAll_mem : ∀ (ms : List Metric) (m : Metric), m ∈ ms →
    ∃ a b, renderAll ms = a ++ (typeLine m ++ b) := by
  intro ms
  induction ms with
  | nil =>
    intro m hm
    simp at hm
  | cons hd tl ih =>
    intro m hm
    rcases List.mem_cons.mp hm with h | h
    · subst h
      refine ⟨helpLine m, sampleLine m ++ renderAll tl, ?_⟩
      show renderMetric m ++ renderAll tl = _
      simp only [renderMetric, String.append_assoc]
    · obtain ⟨a, b, hab⟩ := ih m h
      refine ⟨renderMetric hd ++ a, b, ?_⟩
      show renderMetric hd ++ renderAll tl = _
      rw [hab, String.append_assoc]

/-- C6: every metric retained by the generator is rendered with a TYPE
line whose type is `gauge` exactly when the metric node's `flag` field is
the string `g`, and `counter` for every other flag value, including an
absent flag (where `getString` yields the empty string). -/
theorem type_line_gauge_iff_flag_g :
    ∀ (cs : List (String × Json)) (vcl : String) (st : String × List Metric),
      visitAll cs (vcl, []) = some st →
      ∀ m ∈ st.2,
        ∃ a b, genMetrics cs vcl =
          some (a ++ (("# TYPE " ++ metricFullName m ++ " " ++
            (if getString m.value "flag" = "g" then "gauge" else "counter") ++ "\n") ++ b)) := by
  intro cs vcl st hv m hm
  obtain ⟨a, b, hab⟩ := renderAll_mem st.2 m hm
  refine ⟨a, b ++ activeVclBlock st.1, ?_⟩
  have hg : genMetrics cs vcl = some (renderAll st.2 ++ activeVclBlock st.1) := by
    unfold genMetrics
    rw [hv]
  rw [hg, hab]
  have ht : typeLine m = "# TYPE " ++ metricFullName m ++ " " ++
      (if getString m.value "flag" = "g" then "gauge" else "counter") ++ "\n" := rfl
  rw [← ht]
  simp only [String.append_assoc]

/-- Witness for the C6 theorem: a gauge-flagged MAIN counter. -/
theorem type_line_gauge_iff_flag_g_witness :
    ∃ a b, genMetrics [("MAIN.g1", Json.obj [("flag", Json.str "g")])] "" =
      some (a ++ (("# TYPE " ++
        metricFullName (newMetric "main" "g1" emptyLabel (Json.obj [("flag", Json.str "g")])) ++ " " ++
        (if getString (newMetric "main" "g1" emptyLabel
            (Json.obj [("flag", Json.str "g")])).value "flag" = "g"
          then "gauge" else "counter") ++ "\n") ++ b)) := by
  exact type_line_gauge_iff_flag_g [("MAIN.g1", Json.obj [("flag", Json.str "g")])] ""
    ("", [newMetric "main" "g1" emptyLabel (Json.obj [("flag", Json.str "g")])]) rfl
    (newMetric "main" "g1" emptyLabel (Json.obj [("flag", Json.str "g")]))
    (List.mem_singleton.mpr rfl)

/-- Appending on the right of a nonempty string keeps it nonempty. -/
theorem str_ne_empty_append (a b : String) (ha : a ≠ "") : a ++ b ≠ "" := by
  intro h
  have hd := congrArg String.data h
  rw [String.data_append] at hd
  rcases List.append_eq_nil.mp hd with ⟨h1, h2⟩
  exact ha (String.ext h1)

/-- Folding string concatenation from an arbitrary start factors the
start out. -/
theorem strFoldl_append_start : ∀ (l : List String) (s : String),
    l.foldl (fun r t => r ++ t) s = s ++ l.foldl (fun r t => r ++ t) "" := by
  intro l
  induction l with
  | nil =>
    intro s
    simp only [List.foldl]
    rw [String.append_empty]
  | cons hd tl ih =>
    intro s
    simp only [List.foldl]
    rw [ih (s ++ hd), ih ("" ++ hd), String.empty_append, String.append_assoc]

/-- String.join distributes over cons. -/
theorem strJoin_cons (a : String) (l : List String) :
    String.join (a :: l) = a ++ String.join l := by
  show List.foldl (fun r t => r ++ t) "" (a :: l) = a ++ List.foldl (fun r t => r ++ t) "" l
  simp only [List.foldl]
  rw [strFoldl_append_start l ("" ++ a), String.empty_append]

/-- Joining a comma-interspersed list factors as head plus comma-prefixed
tail entries. -/
theorem strJoin_intersperse_cons : ∀ (l : List String) (a : String),
    String.join (List.intersperse "," (a :: l)) =
      a ++ String.join (l.map (fun t => "," ++ t)) := by
  intro l
  induction l with
  | nil =>
    intro a
    show String.join [a] = a ++ ""
    rw [String.append_empty]
    show "" ++ a = a
    rw [String.empty_append]
  | cons b tl ih =>
    intro a
    rw [List.intersperse_cons_cons, strJoin_cons, strJoin_cons, ih b, List.map_cons,
      strJoin_cons, String.append_assoc]

/-- The label-render loop of `formatLabel`, run from a nonempty buffer,
appends one comma-prefixed entry per remaining label. -/
theorem formatLabel_foldl : ∀ (l : List (String × String)) (w : String), w ≠ "" →
    l.foldl (fun w p =>
        (if w = "" then "\x7b" else w ++ ",") ++ p.1 ++ "=\"" ++ p.2 ++ "\"") w =
      w ++ String.join (l.map (fun q => "," ++ (q.1 ++ "=\"" ++ q.2 ++ "\""))) := by
  intro l
  induction l with
  | nil =>
    intro w _
    show w = w ++ ""
    rw [String.append_empty]
  | cons q tl ih =>
    intro w hw
    simp only [List.foldl]
    rw [if_neg hw]
    have hne : (w ++ ",") ++ q.1 ++ "=\"" ++ q.2 ++ "\"" ≠ "" := by
      apply str_ne_empty_append
      apply str_ne_empty_append
      apply str_ne_empty_append
      apply str_ne_empty_append
      apply str_ne_empty_append
      exact hw
    rw [ih _ hne, List.map_cons, strJoin_cons]
    simp only [String.append_assoc]

/-- C7: `formatLabel` of the empty label mapping is the empty string, and
of any nonempty mapping is an opening brace, the comma-separated
`key="value"` entries (one per mapping entry, in order), and a closing
brace. -/
theorem formatLabel_shape :
    formatLabel [] = "" ∧
    ∀ (p : String × String) (l : List (String × String)),
      formatLabel (p :: l) =
        "\x7b" ++ String.join (List.intersperse ","
          ((p :: l).map (fun q => q.1 ++ "=\"" ++ q.2 ++ "\""))) ++ "\x7d" := by
  refine ⟨rfl, ?_⟩
  intro p l
  show (if (List.foldl _ "" (p :: l) : String) = "" then (List.foldl _ "" (p :: l) : String)
      else List.foldl _ "" (p :: l) ++ "\x7d") = _
  simp only [List.foldl, if_true]
  have hne0 : ("\x7b" ++ p.1 ++ "=\"" ++ p.2 ++ "\"" : String) ≠ "" := by
    apply str_ne_empty_append
    apply str_ne_empty_append
    apply str_ne_empty_append
    apply str_ne_empty_append
    decide
  rw [formatLabel_foldl l _ hne0]
  rw [if_neg (str_ne_empty_append _ _ hne0)]
  rw [List.map_cons, strJoin_intersperse_cons, List.map_map]
  simp only [Function.comp_def, String.append_assoc]

/-- Witness for the C7 theorem at a one-entry mapping. -/
theorem formatLabel_shape_witness :
    formatLabel [("a", "b")] = "\x7ba=\"b\"\x7d" := by
  exact (formatLabel_shape.2 ("a", "b") []).trans rfl

/-- C9 (amended): when `genMetrics` runs with the empty active revision on
counters made of a VBE-free prefix, then a VBE key with four segments and
a nonempty revision id, then anything, a successful render's output ends
with the `varnish_active_vcl` block carrying that adopted revision id as
the version label, not the empty string that was passed in. -/
theorem trailing_block_adopted_revision :
    ∀ (pre post : List (String × Json)) (key : String) (val : Json)
      (p1 backend nm : String) (rest : List String) (out : String),
      (∀ p ∈ pre, ¬ isVBEKey p.1) →
      splitDot key = "VBE" :: p1 :: backend :: nm :: rest →
      p1 ≠ "" →
      genMetrics (pre ++ (key, val) :: post) "" = some out →
      strSuffix (activeVclBlock p1) out = true := by
  intro pre post key val p1 backend nm rest out hpre hs hp1 h
  obtain ⟨st, hv, he⟩ := genMetrics_some _ _ _ h
  rw [visitAll_append] at hv
  cases hv1 : visitAll pre ("", []) with
  | none =>
    rw [hv1] at hv
    simp at hv
  | some st1 =>
    rw [hv1] at hv
    have hv2 : visitAll ((key, val) :: post) st1 = some st := hv
    have h1 : st1.1 = "" := visitAll_fst_not_vbe pre ("", []) st1 hpre hv1
    simp only [visitAll] at hv2
    have hst1 : st1 = ("", st1.2) := by rw [← h1]
    have hadopt : visitKey st1 key val =
        some (p1, st1.2 ++ [newMetric "backend" nm (newLabel "name" backend) val]) := by
      rw [hst1]
      exact visitKey_vbe_produce "" st1.2 key val p1 backend nm rest hs (Or.inl rfl)
    rw [hadopt] at hv2
    have hv3 : visitAll post
        (p1, st1.2 ++ [newMetric "backend" nm (newLabel "name" backend) val]) = some st := hv2
    have h2 : st.1 = p1 := visitAll_fst_stable post _ st hp1 hv3
    rw [he, h2]
    exact strSuffix_append _ _

/-- C9 counterexample: the first VBE key `VBE..x.y` has the empty revision
id (its second segment is empty), so per the claim the trailing block's
version label should be that id, the empty string; the code instead lets
the second VBE key adopt `r`, and the output ends with the block for `r`,
not with the block for the empty string. -/
theorem trailing_block_not_first_vbe_revision :
    splitDot "VBE..x.y" = ["VBE", "", "x", "y"] ∧
    genMetrics [("VBE..x.y", Json.null), ("VBE.r.x.y", Json.null)] "" ≠ none ∧
    strSuffix (activeVclBlock "")
      ((genMetrics [("VBE..x.y", Json.null), ("VBE.r.x.y", Json.null)] "").getD "") = false ∧
    strSuffix (activeVclBlock "r")
      ((genMetrics [("VBE..x.y", Json.null), ("VBE.r.x.y", Json.null)] "").getD "") = true := by
  exact ⟨rfl, by decide, rfl, rfl⟩

/-- Witness for the C9 theorem at a single VBE key with revision `r1`. -/
theorem trailing_block_adopted_revision_witness :
    strSuffix (activeVclBlock "r1")
      ("# HELP varnish_backend_cn \n# TYPE varnish_backend_cn counter\nvarnish_backend_cn\x7bname=\"bk\"\x7d 0\n"
        ++ activeVclBlock "r1") = true := by
  exact trailing_block_adopted_revision [] [] "VBE.r1.bk.cn" Json.null "r1" "bk" "cn" []
    ("# HELP varnish_backend_cn \n# TYPE varnish_backend_cn counter\nvarnish_backend_cn\x7bname=\"bk\"\x7d 0\n"
      ++ activeVclBlock "r1")
    (by simp) rfl (by decide) rfl

/-- C10: every Metric constructed by the generator carries at most one
label entry: exactly one for the backend, mempool, sma, lock and smf
categories and none for main and mgt, so the rendered label block of each
metric is deterministic even though Go stores label mappings in unordered
maps. -/
theorem metric_labels_at_most_one :
    ∀ (cs : List (String × Json)) (vcl : String) (st : String × List Metric),
      visitAll cs (vcl, []) = some st →
      ∀ m ∈ st.2,
        m.labels.length ≤ 1 ∧
        ((m.category = "backend" ∨ m.category = "mempool" ∨ m.category = "sma" ∨
          m.category = "lock" ∨ m.category = "smf") → m.labels.length = 1) ∧
        ((m.category = "main" ∨ m.category = "mgt") → m.labels = []) := by
  intro cs vcl st hv m hm
  rcases visitAll_shape cs (vcl, []) st hv m hm with hmem | hsh
  · simp at hmem
  · rcases hsh with ⟨hc, b, hl⟩ | ⟨hc, b, hl⟩ | ⟨hc, b, hl⟩ | ⟨hc, hl⟩
    · refine ⟨by simp [hl], fun _ => by simp [hl], fun h9 => ?_⟩
      rcases hc with hc | hc <;> rcases h9 with h9 | h9 <;> rw [hc] at h9 <;> simp at h9
    · refine ⟨by simp [hl], fun _ => by simp [hl], fun h9 => ?_⟩
      rcases hc with hc | hc <;> rcases h9 with h9 | h9 <;> rw [hc] at h9 <;> simp at h9
    · refine ⟨by simp [hl], fun _ => by simp [hl], fun h9 => ?_⟩
      rcases h9 with h9 | h9 <;> rw [hc] at h9 <;> simp at h9
    · refine ⟨by simp [hl], fun h9 => ?_, fun _ => hl⟩
      rcases hc with hc | hc <;>
        rcases h9 with h9 | h9 | h9 | h9 | h9 <;> rw [hc] at h9 <;> simp at h9

/-- Witness for the C10 theorem at a single MAIN counter. -/
theorem metric_labels_at_most_one_witness :
    (newMetric "main" "x" emptyLabel Json.null).labels.length ≤ 1 ∧
    (((newMetric "main" "x" emptyLabel Json.null).category = "backend" ∨
      (newMetric "main" "x" emptyLabel Json.null).category = "mempool" ∨
      (newMetric "main" "x" emptyLabel Json.null).category = "sma" ∨
      (newMetric "main" "x" emptyLabel Json.null).category = "lock" ∨
      (newMetric "main" "x" emptyLabel Json.null).category = "smf") →
      (newMetric "main" "x" emptyLabel Json.null).labels.length = 1) ∧
    (((newMetric "main" "x" emptyLabel Json.null).category = "main" ∨
      (newMetric "main" "x" emptyLabel Json.null).category = "mgt") →
      (newMetric "main" "x" emptyLabel Json.null).labels = []) := by
  exact metric_labels_at_most_one [("MAIN.x", Json.null)] ""
    ("", [newMetric "main" "x" emptyLabel Json.null]) rfl
    (newMetric "main" "x" emptyLabel Json.null) (List.mem_singleton.mpr rfl)

end VarnishExporter
